import Mathlib

/-!
Shallow embedding of the admission-control core of the repository
(`src/lib/redis.ts`, `src/lib/s3.ts`, `src/lib/ai-service.ts`,
`src/lib/rate-limit.ts` and the `generate-outline` route), together with
proofs of the spec's testable properties about it.

Conventions of the embedding:
* the Counter Store's plain string-keyed integer counters are a total
  function `String → Nat` (keys absent from the store read as 0, which is
  Redis's behaviour for `INCR` on a missing key);
* one checked call is one atomic `INCR` (the source issues the `incr` and
  the `expire` in a single pipeline; the `expire` only re-arms the TTL of
  the current fixed window's key, which the model renders by keying the
  counter on the window index, so an expired key is simply a key that is
  never read again);
* store unreachability is an explicit boolean/outcome parameter: the
  source's `try/catch` around the store round-trip becomes a `match` on
  that outcome.
-/

/-- A bank of integer counters, as exposed by the Counter Store: every key
reads as a natural number, missing keys read as 0. -/
abbrev Store := String → Nat

/-- Atomic `INCR key`: returns the post-increment value and the updated
store. -/
def incrStore (s : Store) (k : String) : Nat × Store :=
  let v := s k + 1
  (v, fun k2 => if k2 = k then v else s k2)

/-- Result record of `RateLimiter.checkLimit` in `src/lib/redis.ts`:
`{ allowed, remaining, resetTime }`.  `remaining` is an integer because the
fail-open branch computes `maxRequests - 1` without clamping. -/
structure CheckResult where
  allowed : Bool
  remaining : Int
  resetTime : Int
deriving Repr, DecidableEq

/-- The per-window counter key `rate_limit:<identifier>:<window>` built by
`RateLimiter.checkLimit` (`key = rate_limit:<id>`, `windowKey = key:<window>`). -/
def windowKey (identifier : String) (window : Nat) : String :=
  "rate_limit:" ++ identifier ++ ":" ++ toString window

/-- Embedding of `RateLimiter.checkLimit(identifier, windowMs, maxRequests)`
from `src/lib/redis.ts` (the in-repo Window Limiter).  `storeUp = false`
takes the `catch` branch of the source (store unreachable): the call fails
open with `allowed=true, remaining=maxRequests-1` and the store is left
unchanged.  With the store up, the source computes
`window = floor(now / windowMs)`, atomically increments the window key,
and answers `allowed = count <= maxRequests`,
`remaining = max(0, maxRequests - count)`,
`resetTime = (window + 1) * windowMs`. -/
def checkLimit (storeUp : Bool) (now windowMs maxRequests : Nat)
    (identifier : String) (s : Store) : CheckResult × Store :=
  let window := now / windowMs
  let wkey := windowKey identifier window
  if storeUp then
    let (count, s2) := incrStore s wkey
    ({ allowed := decide (count ≤ maxRequests)
     , remaining := max 0 ((maxRequests : Int) - (count : Int))
     , resetTime := (((window + 1) * windowMs : Nat) : Int) }, s2)
  else
    ({ allowed := true
     , remaining := (maxRequests : Int) - 1
     , resetTime := ((now + windowMs : Nat) : Int) }, s)

/-- A sequence of `checkLimit` calls for one identifier, threaded through the
store; returns the list of per-call results and the final store. -/
def checkLimitRun (storeUp : Bool) (windowMs maxRequests : Nat)
    (identifier : String) : List Nat → Store → List CheckResult × Store
  | [], s => ([], s)
  | t :: ts, s =>
    let p := checkLimit storeUp t windowMs maxRequests identifier s
    let q := checkLimitRun storeUp windowMs maxRequests identifier ts p.2
    (p.1 :: q.1, q.2)

/-- The result `checkLimit` produces when the atomic increment returns
`count`, in window `w` of width `W`. -/
def expectedResult (W maxRequests w count : Nat) : CheckResult :=
  { allowed := decide (count ≤ maxRequests)
  , remaining := max 0 ((maxRequests : Int) - (count : Int))
  , resetTime := (((w + 1) * W : Nat) : Int) }

theorem checkLimit_sameWindow (W maxR now w : Nat) (idf : String) (s : Store)
    (hw : now / W = w) :
    checkLimit true now W maxR idf s =
      (expectedResult W maxR w (s (windowKey idf w) + 1),
       fun k2 => if k2 = windowKey idf w then s (windowKey idf w) + 1 else s k2) := by
  simp [checkLimit, incrStore, expectedResult, hw]

/-- Characterisation of a run of same-window calls: starting from a counter
value `c`, the i-th call observes count `c + i + 1`, and the final counter is
`c + ts.length`. -/
theorem checkLimitRun_sameWindow (W maxR w : Nat) (idf : String)
    (ts : List Nat) (s : Store) (c : Nat)
    (hwin : ∀ t ∈ ts, t / W = w) (hc : s (windowKey idf w) = c) :
    (checkLimitRun true W maxR idf ts s).1 =
      (List.range ts.length).map (fun i => expectedResult W maxR w (c + i + 1)) ∧
    (checkLimitRun true W maxR idf ts s).2 (windowKey idf w) = c + ts.length := by
  induction ts generalizing s c with
  | nil => simpa [checkLimitRun] using hc
  | cons t ts ih =>
    have hw : t / W = w := hwin t (List.mem_cons_self t ts)
    have hwin2 : ∀ u ∈ ts, u / W = w := fun u hu => hwin u (List.mem_cons_of_mem t hu)
    have hstep := checkLimit_sameWindow W maxR t w idf s hw
    set s2 : Store := fun k2 => if k2 = windowKey idf w then s (windowKey idf w) + 1 else s k2 with hs2
    have hc2 : s2 (windowKey idf w) = c + 1 := by simp [hs2, hc]
    have hrec := ih s2 (c + 1) hwin2 hc2
    constructor
    · show (checkLimitRun true W maxR idf (t :: ts) s).1 = _
      simp only [checkLimitRun, hstep, hc]
      rw [List.length_cons, List.range_succ_eq_map, List.map_cons, List.map_map]
      refine congrArg₂ _ rfl ?_
      rw [hrec.1]
      refine List.map_congr_left (fun i _ => ?_)
      simp only [Function.comp]
      congr 1
      omega
    · show (checkLimitRun true W maxR idf (t :: ts) s).2 (windowKey idf w) = c + (t :: ts).length
      simp only [checkLimitRun, hstep]
      rw [show (c + (t :: ts).length) = (c + 1) + ts.length by simp; omega]
      exact hrec.2

theorem countP_range_allowed (c maxR : Nat) : ∀ n,
    (List.range n).countP (fun i => decide (c + i + 1 ≤ maxR)) = min n (maxR - c) := by
  intro n
  induction n with
  | zero => simp
  | succ n ih =>
    rw [List.range_succ, List.countP_append, ih]
    by_cases h : c + n + 1 ≤ maxR
    · simp [List.countP_cons, h]
      omega
    · simp [List.countP_cons, h]
      omega

theorem countP_range_denied (c maxR : Nat) : ∀ n,
    (List.range n).countP (fun i => !decide (c + i + 1 ≤ maxR)) = n - (maxR - c) := by
  intro n
  induction n with
  | zero => simp
  | succ n ih =>
    rw [List.range_succ, List.countP_append, ih]
    by_cases h : c + n + 1 ≤ maxR
    · simp [List.countP_cons, h]
      omega
    · simp [List.countP_cons, h]
      omega

/-- C1: for the in-repo Window Limiter (`RateLimiter.checkLimit` in
`src/lib/redis.ts`) and every identity, with a limit class of
`points = N` per window of `W` milliseconds, any `N + 1` calls whose
timestamps fall inside one window and which start from a fresh counter
behave as the spec states: the first `N` calls return `allowed = true`
with `remaining` strictly decreasing through `N-1, N-2, …, 0`, and the
`(N+1)`-th call returns `allowed = false`. -/
theorem C1_first_N_allowed_then_denied (N W w : Nat) (idf : String) (s : Store)
    (ts : List Nat) (hlen : ts.length = N + 1)
    (hwin : ∀ t ∈ ts, t / W = w) (hfresh : s (windowKey idf w) = 0) :
    (∀ i, i < N → ∃ r : CheckResult,
        ((checkLimitRun true W N idf ts s).1)[i]? = some r ∧
        r.allowed = true ∧ r.remaining = (N : Int) - (i + 1)) ∧
    (∃ r : CheckResult,
        ((checkLimitRun true W N idf ts s).1)[N]? = some r ∧
        r.allowed = false ∧ r.remaining = 0) := by
  obtain ⟨hres, -⟩ := checkLimitRun_sameWindow W N w idf ts s 0 hwin hfresh
  rw [hlen] at hres
  constructor
  · intro i hi
    refine ⟨expectedResult W N w (0 + i + 1), ?_, ?_, ?_⟩
    · rw [hres, List.getElem?_map, List.getElem?_range (by omega)]
      rfl
    · simp only [expectedResult, decide_eq_true_eq]
      omega
    · simp only [expectedResult]
      omega
  · refine ⟨expectedResult W N w (0 + N + 1), ?_, ?_, ?_⟩
    · rw [hres, List.getElem?_map, List.getElem?_range (by omega)]
      rfl
    · simp only [expectedResult, decide_eq_false_iff_not]
      omega
    · simp only [expectedResult]
      omega

theorem C1_first_N_allowed_then_denied_witness :
    (∀ i : Nat, i < 2 → ∃ r : CheckResult,
        ((checkLimitRun true 10 2 "u" [1, 2, 3] (fun _ => 0)).1)[i]? = some r ∧
        r.allowed = true ∧ r.remaining = ((2 : Nat) : Int) - ((i : Int) + 1)) ∧
    (∃ r : CheckResult,
        ((checkLimitRun true 10 2 "u" [1, 2, 3] (fun _ => 0)).1)[2]? = some r ∧
        r.allowed = false ∧ r.remaining = 0) := by
  exact C1_first_N_allowed_then_denied 2 10 0 "u" (fun _ => 0) [1, 2, 3]
    (by rfl) (by decide) rfl

/-- C2: no double-allow under concurrency.  Each `checkLimit` call performs
exactly one atomic store operation (the pipelined `INCR`) and otherwise only
pure local computation, so every interleaving of `K` concurrent calls
linearises to some sequential order of the `K` increments; the list `ts` of
observed timestamps (all in one window, as the calls overlap in time) ranges
over all such orders.  Starting from a fresh counter with `K > N` calls and
`points = N`, every order yields exactly `N` results with `allowed = true`
and `K - N` with `allowed = false`; in particular two calls never both see
the last unit of budget. -/
theorem C2_concurrent_exact_allow_count (N K W w : Nat) (idf : String)
    (s : Store) (ts : List Nat) (hlen : ts.length = K) (hKN : N < K)
    (hwin : ∀ t ∈ ts, t / W = w) (hfresh : s (windowKey idf w) = 0) :
    ((checkLimitRun true W N idf ts s).1).countP (fun r => r.allowed) = N ∧
    ((checkLimitRun true W N idf ts s).1).countP (fun r => !r.allowed) = K - N := by
  obtain ⟨hres, -⟩ := checkLimitRun_sameWindow W N w idf ts s 0 hwin hfresh
  rw [hlen] at hres
  rw [hres, List.countP_map, List.countP_map]
  constructor
  · have h := countP_range_allowed 0 N K
    have he : ((fun r : CheckResult => r.allowed) ∘
        fun i => expectedResult W N w (0 + i + 1)) =
        fun i => decide (0 + i + 1 ≤ N) := by
      funext i
      simp [expectedResult]
    rw [he, h]
    omega
  · have h := countP_range_denied 0 N K
    have he : ((fun r : CheckResult => !r.allowed) ∘
        fun i => expectedResult W N w (0 + i + 1)) =
        fun i => !decide (0 + i + 1 ≤ N) := by
      funext i
      simp [expectedResult]
    rw [he, h]
    omega

theorem C2_concurrent_exact_allow_count_witness :
    ((checkLimitRun true 10 1 "u" [1, 2, 3] (fun _ => 0)).1).countP
      (fun r => r.allowed) = 1 ∧
    ((checkLimitRun true 10 1 "u" [1, 2, 3] (fun _ => 0)).1).countP
      (fun r => !r.allowed) = 3 - 1 :=
  C2_concurrent_exact_allow_count 1 3 10 0 "u" (fun _ => 0) [1, 2, 3]
    (by rfl) (by omega) (by decide) rfl

/-- C6 counterexample: `RateLimiter.checkLimit` in `src/lib/redis.ts` buckets
calls into fixed, epoch-aligned windows (`window = ⌊now / windowMs⌋`), not a
sliding window.  With `points = 1` and a 60000 ms window, two calls 1 ms
apart at `t = 59999` and `t = 60000` — both inside one 60-second interval —
are each allowed, because they land in adjacent fixed windows with fresh
counters; this exceeds the claimed sliding-window budget of 1. -/
theorem C6_sliding_window_counterexample :
    ((checkLimitRun true 60000 1 "u" [59999, 60000] (fun _ => 0)).1).map
      (fun r => r.allowed) = [true, true] ∧ 60000 - 59999 < 60000 := by
  constructor
  · rfl
  · omega

/-- C6 amended: the budget is enforced per fixed epoch-aligned window of
`durationSeconds`: among the calls of one identity whose timestamps share a
window index, at most `points` receive `allowed = true` (from any starting
counter value); an interval of the same length that spans a window boundary
may instead see up to `2·points` allowed calls. -/
theorem C6_fixed_window_budget (N W w c : Nat) (idf : String) (s : Store)
    (ts : List Nat) (hwin : ∀ t ∈ ts, t / W = w)
    (hc : s (windowKey idf w) = c) :
    ((checkLimitRun true W N idf ts s).1).countP (fun r => r.allowed) ≤ N := by
  obtain ⟨hres, -⟩ := checkLimitRun_sameWindow W N w idf ts s c hwin hc
  rw [hres, List.countP_map]
  have he : ((fun r : CheckResult => r.allowed) ∘
      fun i => expectedResult W N w (c + i + 1)) =
      fun i => decide (c + i + 1 ≤ N) := by
    funext i
    simp [expectedResult]
  rw [he, countP_range_allowed]
  omega

theorem C6_fixed_window_budget_witness :
    ((checkLimitRun true 10 1 "v" [1, 2, 3] (fun _ => 0)).1).countP
      (fun r => r.allowed) ≤ 1 :=
  C6_fixed_window_budget 1 10 0 0 "v" (fun _ => 0) [1, 2, 3] (by decide) rfl

/-- C7 counterexample: the in-repo Window Limiter (`RateLimiter.checkLimit`
in `src/lib/redis.ts`) has no block-duration input at all, so a class's
`blockDuration = 120 s` is never consulted.  With `points = 5` and
`duration = 60 s` (`W = 60000 ms`): after six calls at `t = 0`, the 6th is
denied with `resetTime = 60000` — the 60 s window rollover, not a 120 s
block — and a further call at `t = 90000` (90 s after the window started)
is allowed again, where the claim requires `allowed = false`. -/
theorem C7_block_duration_counterexample :
    (((checkLimitRun true 60000 5 "u" [0, 0, 0, 0, 0, 0] (fun _ => 0)).1)[5]?).map
        (fun r => (r.allowed, r.resetTime)) = some (false, 60000) ∧
    ((checkLimit true 90000 60000 5 "u"
        (checkLimitRun true 60000 5 "u" [0, 0, 0, 0, 0, 0] (fun _ => 0)).2).1).allowed
      = true := by
  constructor
  · rfl
  · rfl

/-- C7 amended: the in-repo Window Limiter takes no block duration; every
result's `resetTime` is the next fixed-window boundary `(⌊now/W⌋ + 1)·W`
regardless of any configured block duration, and a call that finds a fresh
window counter is allowed whenever `points ≥ 1`, so exhaustion never
outlasts the window.  Block-duration behaviour exists only inside the
external `rate-limiter-flexible` library that the `s3.ts` wrapper
configures (`blockDuration: config.blockDuration || config.duration`). -/
theorem C7_no_block_beyond_window (now W maxR : Nat) (idf : String)
    (s : Store) (hmax : 1 ≤ maxR) :
    ((checkLimit true now W maxR idf s).1).resetTime
        = (((now / W + 1) * W : Nat) : Int) ∧
    (s (windowKey idf (now / W)) = 0 →
      ((checkLimit true now W maxR idf s).1).allowed = true) := by
  have h := checkLimit_sameWindow W maxR now (now / W) idf s rfl
  constructor
  · rw [h]
    rfl
  · intro h0
    rw [h]
    simp [expectedResult, h0]
    omega

theorem C7_no_block_beyond_window_witness :
    ((checkLimit true 90000 60000 5 "u" (fun _ => 0)).1).resetTime
        = (((90000 / 60000 + 1) * 60000 : Nat) : Int) ∧
    ((fun _ => 0 : Store) (windowKey "u" (90000 / 60000)) = 0 →
      ((checkLimit true 90000 60000 5 "u" (fun _ => 0)).1).allowed = true) :=
  C7_no_block_beyond_window 90000 60000 5 "u" (fun _ => 0) (by omega)

/-- Fields of the external `rate-limiter-flexible` result object
(`RateLimiterRes`) that the repository code reads. -/
structure LimiterRes where
  remainingPoints : Nat
  msBeforeNext : Nat
deriving Repr, DecidableEq

/-- Outcome of `limiter.consume(identifier)` as seen by the wrappers: the
promise resolves (`ok`), rejects with a `RateLimiterRes` when the limit is
exceeded (`limited`), or rejects with an `Error` when the Counter Store is
unreachable (`storeError`). -/
inductive ConsumeOutcome where
  | ok (r : LimiterRes)
  | limited (r : LimiterRes)
  | storeError
deriving Repr, DecidableEq

/-- The observable part of the `RateLimitResult` records built by
`src/lib/s3.ts` and `src/lib/rate-limit.ts` (their `resetTime` is just
`Date.now() + msBeforeNext`, and `s3.ts`'s `totalHits` reads a field the
library result does not have, so both are determined by these three). -/
structure RateLimitResult where
  allowed : Bool
  remainingPoints : Nat
  msBeforeNext : Nat
deriving Repr, DecidableEq

/-- Embedding of `RateLimiter.checkLimit(identifier)` from `src/lib/s3.ts`
(the `rate-limiter-flexible` wrapper).  The `try` branch handles a resolved
`consume`; the single `catch (rejectedResult)` branch handles BOTH a
rate-limit rejection and a store error, returning `allowed = false` either
way — for a store error the fields read off the rejection value are
`undefined` and the `|| 0` defaults make them 0. -/
def s3CheckLimit : ConsumeOutcome → RateLimitResult
  | .ok r =>
    { allowed := true
    , remainingPoints := r.remainingPoints
    , msBeforeNext := r.msBeforeNext }
  | .limited r =>
    { allowed := false
    , remainingPoints := r.remainingPoints
    , msBeforeNext := r.msBeforeNext }
  | .storeError =>
    { allowed := false, remainingPoints := 0, msBeforeNext := 0 }

/-- Embedding of `checkRateLimit(key, type)` from `src/lib/rate-limit.ts`:
the same `try/catch` shape as `s3CheckLimit` — its `catch (rateLimiterRes)`
also converts a store error into `allowed = false` with `|| 0` defaults. -/
def checkRateLimitTs : ConsumeOutcome → RateLimitResult
  | .ok r =>
    { allowed := true
    , remainingPoints := r.remainingPoints
    , msBeforeNext := r.msBeforeNext }
  | .limited r =>
    { allowed := false
    , remainingPoints := r.remainingPoints
    , msBeforeNext := r.msBeforeNext }
  | .storeError =>
    { allowed := false, remainingPoints := 0, msBeforeNext := 0 }

/-- C3 counterexample: in `src/lib/s3.ts` a store-unreachable `consume` is
caught by the same `catch` that handles rate-limit rejections, so
`RateLimiter.checkLimit` returns `allowed = false` — not the claimed
fail-open `allowed = true` with `remainingPoints = points - 1`; the
`checkRateLimit` of `src/lib/rate-limit.ts` does the same. -/
theorem C3_fail_open_counterexample :
    (s3CheckLimit ConsumeOutcome.storeError).allowed = false ∧
    (checkRateLimitTs ConsumeOutcome.storeError).allowed = false :=
  ⟨rfl, rfl⟩

/-- C3 amended: fail-open on store unreachability holds exactly for the
in-repo Window Limiter `RateLimiter.checkLimit` of `src/lib/redis.ts`,
which returns `allowed = true` with `remaining = maxRequests - 1` and
leaves the store untouched; the `rate-limiter-flexible` wrappers
(`RateLimiter.checkLimit` in `src/lib/s3.ts` and `checkRateLimit` in
`src/lib/rate-limit.ts`) instead fail closed, reporting
`allowed = false, remainingPoints = 0, msBeforeNext = 0`. -/
theorem C3_fail_open_amended (now W maxR : Nat) (idf : String) (s : Store) :
    (checkLimit false now W maxR idf s).1.allowed = true ∧
    (checkLimit false now W maxR idf s).1.remaining = (maxR : Int) - 1 ∧
    (checkLimit false now W maxR idf s).2 = s ∧
    s3CheckLimit ConsumeOutcome.storeError =
      { allowed := false, remainingPoints := 0, msBeforeNext := 0 } ∧
    checkRateLimitTs ConsumeOutcome.storeError =
      { allowed := false, remainingPoints := 0, msBeforeNext := 0 } :=
  ⟨rfl, rfl, rfl, rfl, rfl⟩

/-- Outcome of the non-mutating `limiter.get(identifier)`: resolves with
`null` when no counter exists, with a result object otherwise, or rejects
when the Counter Store is unreachable. -/
inductive GetOutcome where
  | ok (r : Option LimiterRes)
  | storeError
deriving Repr, DecidableEq

/-- Embedding of `RateLimiter.getRemainingPoints(identifier)` from
`src/lib/s3.ts`: `result?.remainingPoints || this.config.points` on a
resolved `get` (note the `||` also turns a legitimate remaining count of 0
into the full budget), and `0` from the `catch` when the store is
unreachable. -/
def getRemainingPoints (points : Nat) : GetOutcome → Nat
  | .ok (some r) => if r.remainingPoints = 0 then points else r.remainingPoints
  | .ok none => points
  | .storeError => 0

/-- C10 counterexample: during store degradation the peek path does report
0, but the mutating consume path of the same `s3.ts` limiter does not
"fail open and allow the action" as the claim's premise states — it
returns `allowed = false` (store errors share the rate-limited `catch`). -/
theorem C10_peek_zero_counterexample :
    getRemainingPoints 20 GetOutcome.storeError = 0 ∧
    (s3CheckLimit ConsumeOutcome.storeError).allowed = false :=
  ⟨rfl, rfl⟩

/-- C10 amended: when the Counter Store is unreachable,
`getRemainingPoints` returns 0 — a fully exhausted budget — whatever the
configured `points`; the same file's mutating `checkLimit` also denies
(fails closed), and only the separate `redis.ts` limiter's consume path
fails open and allows the action. -/
theorem C10_peek_zero_amended (points now W maxR : Nat) (idf : String)
    (s : Store) :
    getRemainingPoints points GetOutcome.storeError = 0 ∧
    (s3CheckLimit ConsumeOutcome.storeError).allowed = false ∧
    (checkLimit false now W maxR idf s).1.allowed = true :=
  ⟨rfl, rfl, rfl⟩

/-- The two counters `AIRateLimit.checkRateLimit` touches for one user in
the current hour/minute buckets — `ai_rate_limit:hour:<user>:<hourIdx>` and
`ai_rate_limit:minute:<user>:<minuteIdx>` in `AppCache`; the two keys are
distinct, so they are independent fields here. -/
structure AITierCounters where
  hour : Nat
  minute : Nat
deriving Repr, DecidableEq

/-- Embedding of `AIRateLimit.checkRateLimit(userId)` from
`src/lib/ai-service.ts`: it increments BOTH counters unconditionally (a
`Promise.all` over two `AppCache.increment` calls) and returns the bare
boolean `hourlyCount <= MAX_REQUESTS_PER_HOUR && minuteCount <=
MAX_REQUESTS_PER_MINUTE` with the source constants 100 and 20. -/
def aiCheckRateLimit (c : AITierCounters) : Bool × AITierCounters :=
  let h := c.hour + 1
  let m := c.minute + 1
  (decide (h ≤ 100) && decide (m ≤ 20), { hour := h, minute := m })

/-- C4 counterexample: start with the hour tier already exhausted
(counter 100, so this call takes it to 101 and the hour tier denies).  The
call still increments the minute tier's counter from 0 to 1 — budget IS
consumed from a tier other than the denying one — and only a bare boolean
comes back, not the denying tier's decision; there is no short-circuit. -/
theorem C4_short_circuit_counterexample :
    aiCheckRateLimit { hour := 100, minute := 0 } =
      (false, { hour := 101, minute := 1 }) :=
  rfl

/-- C4 amended: the multi-tier AI admission check evaluates both tiers
unconditionally and in parallel: every call increments the hour and the
minute counters by exactly one regardless of the outcome — consuming
budget in every tier even when another tier denies — and the returned
decision is only the boolean conjunction of the two per-tier
comparisons. -/
theorem C4_all_tiers_consumed (c : AITierCounters) :
    (aiCheckRateLimit c).2.hour = c.hour + 1 ∧
    (aiCheckRateLimit c).2.minute = c.minute + 1 ∧
    ((aiCheckRateLimit c).1 = true ↔
      (c.hour + 1 ≤ 100 ∧ c.minute + 1 ≤ 20)) := by
  refine ⟨rfl, rfl, ?_⟩
  simp [aiCheckRateLimit]

/-- Shape of a JSON route response as far as the claims are concerned:
HTTP status, the `error` string of the body, and the retry metadata (the
body's `retryAfter` field, which also feeds the `Retry-After` header) when
the route attaches any. -/
structure RouteResponse where
  status : Nat
  error : String
  retryAfter : Option Nat
deriving Repr, DecidableEq

/-- The 429 response built by `generateOutlineHandler`
(`src/app/api/generate-outline/route.ts`) when `AIRateLimit.checkRateLimit`
returns `false`: a body of two fixed strings with no retry timing at
all. -/
def generateOutlineRateLimited : RouteResponse :=
  { status := 429, error := "Rate limit exceeded", retryAfter := none }

/-- Admission step of `generateOutlineHandler`: consult
`AIRateLimit.checkRateLimit`, continue on `true`, answer the fixed 429 on
`false`. -/
def generateOutlineAdmission (c : AITierCounters) :
    Except RouteResponse AITierCounters :=
  let p := aiCheckRateLimit c
  if p.1 then .ok p.2 else .error generateOutlineRateLimited

/-- JavaScript's `Math.ceil(ms / 1000)` on a whole number of
milliseconds. -/
def ceilSeconds (ms : Nat) : Nat := (ms + 999) / 1000

/-- Embedding of `rateLimit(req, identifier, isApiRoute)` from
`src/lib/rate-limit.ts` (the middleware behind `withRateLimit`): `null`
(here `none`) when `consume` resolves, otherwise a 429 response whose body
and `Retry-After` header carry `retryAfter = ⌈msBeforeNext / 1000⌉` — 0
for a store error, whose rejection value has no such field. -/
def rateLimitMiddleware : ConsumeOutcome → Option RouteResponse
  | .ok _ => none
  | .limited r =>
    some { status := 429, error := "Rate limit exceeded"
         , retryAfter := some (ceilSeconds r.msBeforeNext) }
  | .storeError =>
    some { status := 429, error := "Rate limit exceeded"
         , retryAfter := some (ceilSeconds 0) }

/-- C9 counterexample: with the minute tier exhausted (counter 20), the AI
admission check reports its denial as the bare boolean `false`, and the
generate-outline handler surfaces it as a 429 that carries no retry timing
(`retryAfter = none`) — a denied admission decision without structured
retry metadata, contradicting the claim. -/
theorem C9_bare_boolean_counterexample :
    aiCheckRateLimit { hour := 0, minute := 20 } =
      (false, { hour := 1, minute := 21 }) ∧
    generateOutlineAdmission { hour := 0, minute := 20 } =
      .error { status := 429, error := "Rate limit exceeded"
             , retryAfter := none } :=
  ⟨rfl, rfl⟩

/-- C9 amended: denials issued through the `rate-limit.ts` middleware do
carry structured retry metadata — a 429 with
`retryAfter = ⌈msBeforeNext/1000⌉` — but the AI admission path does not:
`AIRateLimit.checkRateLimit` yields a bare boolean, and whenever it
denies, the generate-outline handler's 429 has no retry timing. -/
theorem C9_retry_metadata_amended (r : LimiterRes) (c : AITierCounters)
    (hdeny : (aiCheckRateLimit c).1 = false) :
    rateLimitMiddleware (ConsumeOutcome.limited r) =
      some { status := 429, error := "Rate limit exceeded"
           , retryAfter := some (ceilSeconds r.msBeforeNext) } ∧
    generateOutlineAdmission c =
      .error { status := 429, error := "Rate limit exceeded"
             , retryAfter := none } := by
  refine ⟨rfl, ?_⟩
  simp [generateOutlineAdmission, generateOutlineRateLimited, hdeny]

theorem C9_retry_metadata_amended_witness :
    rateLimitMiddleware
        (ConsumeOutcome.limited { remainingPoints := 0, msBeforeNext := 5000 }) =
      some { status := 429, error := "Rate limit exceeded"
           , retryAfter := some (ceilSeconds 5000) } ∧
    generateOutlineAdmission { hour := 0, minute := 20 } =
      .error { status := 429, error := "Rate limit exceeded"
             , retryAfter := none } :=
  C9_retry_metadata_amended { remainingPoints := 0, msBeforeNext := 5000 }
    { hour := 0, minute := 20 } (by decide)

/-- A Redis sorted set, the queue's backing structure: a list of
`(score, member)` pairs whose members are pairwise distinct. -/
abbrev ZSet := List (Int × String)

/-- `ZADD key score member`: inserts the member with the given score,
replacing any previous entry for the same member. -/
def zadd (z : ZSet) (score : Int) (member : String) : ZSet :=
  (score, member) :: z.filter (fun e => e.2 != member)

/-- Lexicographic comparison of member strings by code point, matching the
`memcmp` byte order Redis uses between same-score members (the two
coincide on the ASCII members that occur here). -/
def charListLt : List Char → List Char → Bool
  | _, [] => false
  | [], _ :: _ => true
  | c :: cs, d :: ds =>
    decide (c.toNat < d.toNat) || (c.toNat == d.toNat && charListLt cs ds)

/-- The strict order Redis places on sorted-set entries: by score, with
ties resolved by the lexicographic order of the member string. -/
def zEntryLt (a b : Int × String) : Bool :=
  decide (a.1 < b.1) || (a.1 == b.1 && charListLt a.2.data b.2.data)

/-- `ZPOPMAX key`: removes and returns the entry greatest under
`zEntryLt` — highest score, ties resolved to the lexicographically
greatest member — or nothing when the set is empty. -/
def zpopmax (z : ZSet) : Option (Int × String) × ZSet :=
  match z with
  | [] => (none, [])
  | e :: es =>
    let m := es.foldl (fun acc x => if zEntryLt acc x then x else acc) e
    (some m, z.filter (fun x => x.2 != m.2))

/-- A queue job as built inside `APIRequestQueue.enqueue` in
`src/lib/redis.ts`: `id` is the environment-supplied
`"<Date.now()>-<random suffix>"`, `data` the payload (a JSON string
here), plus the call's `priority` and the enqueue timestamp. -/
structure QueueJob where
  id : String
  data : String
  priority : Int
  enqueuedAt : Nat
deriving Repr, DecidableEq

/-- `JSON.stringify(jobData)` for a string payload, with JavaScript's
insertion-order keys. -/
def serializeJob (j : QueueJob) : String :=
  "\x7b\"id\":\"" ++ j.id ++ "\",\"data\":\"" ++ j.data ++
    "\",\"priority\":" ++ toString j.priority ++
    ",\"enqueuedAt\":" ++ toString j.enqueuedAt ++ "\x7d"

/-- Embedding of `APIRequestQueue.enqueue(queueName, job, priority)` from
`src/lib/redis.ts`: builds `jobData` and `zadd`s its JSON under score
`priority` — the score is the priority alone.  A store failure is logged
and RE-THROWN (`throw error` in the `catch`), rendered here as
`Except.error`. -/
def enqueueJob (storeUp : Bool) (z : ZSet) (j : QueueJob) :
    Except Unit ZSet :=
  if storeUp then .ok (zadd z j.priority (serializeJob j)) else .error ()

/-- Embedding of `APIRequestQueue.dequeue(queueName)` from
`src/lib/redis.ts`: `zpopmax`, returning `null` on an empty result and the
popped member otherwise; a store failure is caught and converted to
`null` (`return null` in the `catch`), so the function never throws —
hence the plain, non-`Except` result type. -/
def dequeueJob (storeUp : Bool) (z : ZSet) : Option String × ZSet :=
  if storeUp then
    match zpopmax z with
    | (none, z2) => (none, z2)
    | (some e, z2) => (some e.2, z2)
  else (none, z)

/-- C8: when the backing store fails, `dequeue` returns the explicit empty
result and leaves the queue alone rather than throwing, while `enqueue`
propagates an error to the caller; and a successful `enqueue` really
stores the job (its serialized form is in the resulting set), so a job is
never silently dropped. -/
theorem C8_queue_failure_modes (z : ZSet) (j : QueueJob) :
    dequeueJob false z = (none, z) ∧
    enqueueJob false z j = .error () ∧
    dequeueJob true [] = (none, []) ∧
    ∃ q : ZSet, enqueueJob true z j = .ok q ∧
      (j.priority, serializeJob j) ∈ q := by
  refine ⟨rfl, rfl, rfl, zadd z j.priority (serializeJob j), rfl, ?_⟩
  simp [zadd]

/-- Sample jobs of the spec's queue-ordering scenario: four jobs enqueued
in order with priorities 1, 5, 1, 5, consecutive millisecond timestamps
and an identical random suffix. -/
def qJob1 : QueueJob :=
  { id := "1000-aaa", data := "d1", priority := 1, enqueuedAt := 1000 }

def qJob2 : QueueJob :=
  { id := "1001-aaa", data := "d2", priority := 5, enqueuedAt := 1001 }

def qJob3 : QueueJob :=
  { id := "1002-aaa", data := "d3", priority := 1, enqueuedAt := 1002 }

def qJob4 : QueueJob :=
  { id := "1003-aaa", data := "d4", priority := 5, enqueuedAt := 1003 }

/-- The backing sorted set after enqueueing the four sample jobs in
order. -/
def sampleQueue : ZSet :=
  zadd (zadd (zadd (zadd [] qJob1.priority (serializeJob qJob1))
    qJob2.priority (serializeJob qJob2)) qJob3.priority (serializeJob qJob3))
    qJob4.priority (serializeJob qJob4)

/-- Drains the queue `n` times with a healthy store, collecting the popped
members. -/
def drainMembers : Nat → ZSet → List (Option String)
  | 0, _ => []
  | n + 1, z =>
    let p := dequeueJob true z
    p.1 :: drainMembers n p.2

/-- C5 counterexample: `enqueue` passes only `priority` as the `zadd`
score — no composite `(priority, -enqueuedAtMs)` — so equal-priority ties
pop by the lexicographically greatest serialized member, which for ids
with equal-length increasing timestamps is the LATEST enqueue, not FIFO.
After enqueueing the four sample jobs with priorities [1, 5, 1, 5], the
first dequeue returns job 4, not the claimed job 2. -/
theorem C5_queue_order_counterexample :
    (dequeueJob true sampleQueue).1 = some (serializeJob qJob4) ∧
    serializeJob qJob4 ≠ serializeJob qJob2 := by
  constructor
  · rfl
  · decide

theorem zEntryLt_imp_le {a b : Int × String} (h : zEntryLt a b = true) :
    a.1 ≤ b.1 := by
  simp only [zEntryLt, Bool.or_eq_true, Bool.and_eq_true, decide_eq_true_eq,
    beq_iff_eq] at h
  rcases h with h | ⟨h, -⟩
  · exact le_of_lt h
  · exact le_of_eq h

theorem zEntryLt_not_imp_ge {a b : Int × String} (h : zEntryLt a b = false) :
    b.1 ≤ a.1 := by
  simp only [zEntryLt, Bool.or_eq_false_iff, decide_eq_false_iff_not] at h
  exact le_of_not_lt h.1

/-- The fold inside `zpopmax` returns an entry whose score dominates the
accumulator's and every listed entry's score. -/
theorem foldl_zEntry_max (es : List (Int × String)) :
    ∀ acc : Int × String,
      acc.1 ≤ (es.foldl (fun a x => if zEntryLt a x then x else a) acc).1 ∧
      ∀ x ∈ es, x.1 ≤ (es.foldl (fun a x => if zEntryLt a x then x else a) acc).1 := by
  induction es with
  | nil =>
    intro acc
    exact ⟨le_refl _, by simp⟩
  | cons e es ih =>
    intro acc
    by_cases hc : zEntryLt acc e
    · have h := ih e
      refine ⟨le_trans (zEntryLt_imp_le hc) ?_, ?_⟩
      · simpa [hc] using h.1
      · intro x hx
        rcases List.mem_cons.mp hx with rfl | hx2
        · simpa [hc] using h.1
        · simpa [hc] using h.2 x hx2
    · have h := ih acc
      refine ⟨by simpa [hc] using h.1, ?_⟩
      intro x hx
      rcases List.mem_cons.mp hx with rfl | hx2
      · exact le_trans (zEntryLt_not_imp_ge (by simpa using hc)) (by simpa [hc] using h.1)
      · simpa [hc] using h.2 x hx2

/-- C5 amended: `dequeue` pops a maximal-score entry, so jobs come out in
priority-descending order; ties within one priority are resolved to the
lexicographically greatest serialized job — for ids with equal-length
increasing timestamps, the most recently enqueued (LIFO within a tier) —
and draining the [1, 5, 1, 5] scenario yields job 4, job 2, job 3,
job 1. -/
theorem C5_queue_order_amended :
    (∀ (z : ZSet) (e : Int × String) (z2 : ZSet),
      zpopmax z = (some e, z2) → ∀ x ∈ z, x.1 ≤ e.1) ∧
    drainMembers 4 sampleQueue =
      [some (serializeJob qJob4), some (serializeJob qJob2),
       some (serializeJob qJob3), some (serializeJob qJob1)] := by
  constructor
  · intro z e z2 hpop x hx
    match z, hx with
    | a :: as, hx =>
      simp only [zpopmax, Prod.mk.injEq, Option.some.inj] at hpop
      have hm := foldl_zEntry_max as a
      have he : (as.foldl (fun acc x => if zEntryLt acc x then x else acc) a) = e := by
        have := hpop.1
        exact Option.some.inj this
      rcases List.mem_cons.mp hx with rfl | hx2
      · rw [← he]
        exact hm.1
      · rw [← he]
        exact hm.2 x hx2
  · rfl

theorem C5_queue_order_amended_witness :
    ((1 : Int), "a").1 ≤ ((5 : Int), "b").1 :=
  C5_queue_order_amended.1 [((1 : Int), "a"), ((5 : Int), "b")]
    ((5 : Int), "b") [((1 : Int), "a")] (by rfl) ((1 : Int), "a")
    (by simp)
